import Mathlib

set_option maxRecDepth 10000

/-!
Shallow embedding of the Modbus-sniffer core of this repository:
the CRC engine and frame reconstructor (`custom_components/modbus_sniffer/parser.py`,
with the sibling copy in `udp_web_server.py`), and the capture hub / correlator /
register store (`custom_components/modbus_sniffer/hub.py`).

Bytes are modelled as `Nat` (callers supply values `< 256` where that matters);
Python `bytes` values become `List Nat`.  Monotonic clock readings (float
seconds in the source) are modelled exactly in integer milliseconds (`Int`),
so the source's `5.0` second TTL is the literal `5000` and a delay of
`5.001` seconds is `5001`.
-/

namespace ModbusSniffer

/-! ### CRC engine (`parser.py::compute_crc`, identical copy in `udp_web_server.py`) -/

/-- One iteration of the inner loop of `compute_crc`:
`if crc & 1: crc = (crc >> 1) ^ 0xA001 else: crc >>= 1`. -/
def crc_round (crc : Nat) : Nat :=
  if crc &&& 1 = 1 then (crc >>> 1) ^^^ 0xA001 else crc >>> 1

/-- Processing of a single byte by `compute_crc`: `crc ^= byte` followed by
eight rounds of `crc_round`. -/
def crc_update (crc byte : Nat) : Nat :=
  crc_round^[8] (crc ^^^ byte)

/-- `parser.py::compute_crc`: CRC-16/Modbus of a byte sequence
(init `0xFFFF`, polynomial `0xA001`, final mask `& 0xFFFF`). -/
def compute_crc (data : List Nat) : Nat :=
  (data.foldl crc_update 0xFFFF) &&& 0xFFFF

/-! ### Candidate frame lengths

`parser.py::_candidate_frame_lengths` masks the function byte with `0x7F`
*before* dispatching on it, so its final `elif function_code & 0x80` arm is
reachable only for function codes outside {1,2,3,4,5,6,15,16}.
The copy in `udp_web_server.py` (same name) dispatches on the *unmasked*
byte, so there the exception arm fires for e.g. `0x83`.

The Python functions build a `set` and return
`sorted(length for length in lengths if 4 <= length <= max_len)`; we model the
set by a list of the added elements and the sorted filtered result by
filtering `List.range (max_len + 1)` on membership. -/

/-- `parser.py::_candidate_frame_lengths` (the reconstructor used by the hub). -/
def candidate_frame_lengths (function_code : Option Nat) (max_len : Nat) : List Nat :=
  match function_code with
  | none => List.range' 4 (max_len + 1 - 4)
  | some f =>
    let fc := f &&& 0x7F
    let lengths : List Nat :=
      if fc = 1 ∨ fc = 2 then
        8 :: ((List.range' 1 (min 252 (max_len - 4) - 1)).map (fun bc => 5 + bc)).filter
          (fun c => c ≤ max_len)
      else if fc = 3 ∨ fc = 4 then
        let max_bc := min (2 * 125) (max_len - 5)
        8 :: ((List.range' 2 (max_bc / 2) 2).map (fun bc => 5 + bc)).filter
          (fun c => c ≤ max_len)
      else if fc = 5 ∨ fc = 6 then [8]
      else if fc = 15 then
        let max_bc := min 246 (max_len - 9)
        8 :: ((List.range' 1 max_bc).map (fun bc => 9 + bc)).filter
          (fun c => c ≤ max_len)
      else if fc = 16 then
        let max_bc := min (2 * 123) (max_len - 9)
        8 :: ((List.range' 2 (max_bc / 2) 2).map (fun bc => 9 + bc)).filter
          (fun c => c ≤ max_len)
      else if f &&& 0x80 ≠ 0 then [5]
      else []
    let lengths := if lengths = [] then List.range' 4 (max_len + 1 - 4) else lengths
    (List.range (max_len + 1)).filter (fun L => decide (4 ≤ L ∧ L ∈ lengths))

/-- `udp_web_server.py::_candidate_frame_lengths`: identical except that the
function byte is *not* masked with `0x7F` before the branch dispatch. -/
def candidate_frame_lengths_web (function_code : Option Nat) (max_len : Nat) : List Nat :=
  match function_code with
  | none => List.range' 4 (max_len + 1 - 4)
  | some f =>
    let lengths : List Nat :=
      if f = 1 ∨ f = 2 then
        8 :: ((List.range' 1 (min 252 (max_len - 4) - 1)).map (fun bc => 5 + bc)).filter
          (fun c => c ≤ max_len)
      else if f = 3 ∨ f = 4 then
        let max_bc := min (2 * 125) (max_len - 5)
        8 :: ((List.range' 2 (max_bc / 2) 2).map (fun bc => 5 + bc)).filter
          (fun c => c ≤ max_len)
      else if f = 5 ∨ f = 6 then [8]
      else if f = 15 then
        let max_bc := min 246 (max_len - 9)
        8 :: ((List.range' 1 max_bc).map (fun bc => 9 + bc)).filter
          (fun c => c ≤ max_len)
      else if f = 16 then
        let max_bc := min (2 * 123) (max_len - 9)
        8 :: ((List.range' 2 (max_bc / 2) 2).map (fun bc => 9 + bc)).filter
          (fun c => c ≤ max_len)
      else if f &&& 0x80 ≠ 0 then [5]
      else []
    let lengths := if lengths = [] then List.range' 4 (max_len + 1 - 4) else lengths
    (List.range (max_len + 1)).filter (fun L => decide (4 ≤ L ∧ L ∈ lengths))

/-! ### Frame splitting (`parser.py::split_modbus_frames`) -/

/-- The CRC test applied to a candidate frame inside `split_modbus_frames`:
`compute_crc(frame[:-2]) == int.from_bytes(frame[-2:], "little")`. -/
def crc_matches (frame : List Nat) : Bool :=
  compute_crc (frame.take (frame.length - 2)) ==
    frame.getD (frame.length - 2) 0 + 256 * frame.getD (frame.length - 1) 0

/-- The inner `for length in candidates` loop of `split_modbus_frames`: try the
candidate lengths in order; skip a candidate when it overruns the data
(`idx + length > n`) or is shorter than 4; return the first length whose
candidate frame passes the CRC test. -/
def find_frame_length (rest : List Nat) : List Nat → Option Nat
  | [] => none
  | L :: more =>
      if L ≤ rest.length ∧ 4 ≤ L ∧ crc_matches (rest.take L) then some L
      else find_frame_length rest more

/-- The scan loop of `split_modbus_frames`, written as recursion on the
suffix `data[idx:]` of the input (the Python code keeps a cursor `idx`; the
loop body only ever looks at `data[idx:]`, so the two views coincide).
Each iteration either stops (fewer than 4 bytes remain), consumes a matched
frame of length `L ≥ 4`, or advances by one byte, so the cursor strictly
increases; `fuel ≥ rest.length` therefore makes the `fuel = 0` branch
unreachable and the function compute exactly the Python loop.
The candidate-length function is a parameter because `parser.py` and
`udp_web_server.py` contain two copies of `split_modbus_frames` differing
only in which `_candidate_frame_lengths` they call. -/
def split_go (cand : Option Nat → Nat → List Nat) :
    Nat → List Nat → List (List Nat) × List Nat
  | 0, rest => ([], rest)
  | fuel + 1, rest =>
    if rest.length < 4 then ([], rest)
    else
      let func := rest.getD 1 0
      let max_len := min 256 rest.length
      match find_frame_length rest (cand (some func) max_len) with
      | some L =>
          let r := split_go cand fuel (rest.drop L)
          (rest.take L :: r.1, r.2)
      | none => split_go cand fuel (rest.drop 1)

/-- `parser.py::split_modbus_frames` (the version the hub feeds). -/
def split_modbus_frames (data : List Nat) : List (List Nat) × List Nat :=
  split_go candidate_frame_lengths data.length data

/-- `udp_web_server.py::split_modbus_frames` (differs only in the
candidate-length function it consults). -/
def split_modbus_frames_web (data : List Nat) : List (List Nat) × List Nat :=
  split_go candidate_frame_lengths_web data.length data

/-! ### PDU parsing (`parser.py`) -/

/-- `frame[2:-2]`: the PDU payload between function byte and CRC. -/
def frame_payload (frame : List Nat) : List Nat :=
  (frame.drop 2).take (frame.length - 4)

/-- The value-extraction loop shared by `parse_fc03_response` and
`parse_fc16_request`: big-endian 16-bit words from consecutive byte pairs,
ignoring a trailing odd byte (`if len(chunk) == 2`). -/
def bytes_to_words : List Nat → List Nat
  | b0 :: b1 :: rest => (256 * b0 + b1) :: bytes_to_words rest
  | _ => []

/-- `parser.py::parse_fc03_request`: `(unit_id, start_addr, quantity)` from an
FC03 request frame. -/
def parse_fc03_request (frame : List Nat) : Option (Nat × Nat × Nat) :=
  if frame.length < 8 then none
  else
    let unit := frame.getD 0 0
    let func := frame.getD 1 0
    if func &&& 0x7F ≠ 3 ∨ func &&& 0x80 ≠ 0 then none
    else
      let payload := frame_payload frame
      if payload.length ≠ 4 then none
      else
        some (unit, 256 * payload.getD 0 0 + payload.getD 1 0,
          256 * payload.getD 2 0 + payload.getD 3 0)

/-- `parser.py::parse_fc03_response`: `(unit_id, values)` from an FC03
response frame; only the complete 2-byte chunks inside `byte_count` become
values, and an empty value list is rejected. -/
def parse_fc03_response (frame : List Nat) : Option (Nat × List Nat) :=
  if frame.length < 5 then none
  else
    let unit := frame.getD 0 0
    let func := frame.getD 1 0
    if func &&& 0x7F ≠ 3 ∨ func &&& 0x80 ≠ 0 then none
    else
      let payload := frame_payload frame
      if payload = [] then none
      else
        let byte_count := payload.getD 0 0
        let data_bytes := (payload.drop 1).take byte_count
        let values := bytes_to_words data_bytes
        if values = [] then none else some (unit, values)

/-- `parser.py::parse_fc06`: `(unit_id, register, value)` from an FC06 frame
(note: the source does not reject the exception bit here). -/
def parse_fc06 (frame : List Nat) : Option (Nat × Nat × Nat) :=
  if frame.length < 8 then none
  else
    let unit := frame.getD 0 0
    let func := frame.getD 1 0
    if func &&& 0x7F ≠ 6 then none
    else
      let payload := frame_payload frame
      if payload.length < 4 then none
      else
        some (unit, 256 * payload.getD 0 0 + payload.getD 1 0,
          256 * payload.getD 2 0 + payload.getD 3 0)

/-- `parser.py::parse_fc16_request`: `(unit_id, start_addr, values)` from an
FC16 request frame, truncated to `quantity` when `0 < quantity < len(values)`. -/
def parse_fc16_request (frame : List Nat) : Option (Nat × Nat × List Nat) :=
  if frame.length < 9 then none
  else
    let unit := frame.getD 0 0
    let func := frame.getD 1 0
    if func &&& 0x7F ≠ 16 ∨ func &&& 0x80 ≠ 0 then none
    else
      let payload := frame_payload frame
      if payload.length < 5 then none
      else
        let start_addr := 256 * payload.getD 0 0 + payload.getD 1 0
        let quantity := 256 * payload.getD 2 0 + payload.getD 3 0
        let byte_count := payload.getD 4 0
        let data_bytes := (payload.drop 5).take byte_count
        let values := bytes_to_words data_bytes
        if values = [] then none
        else
          let values := if 0 < quantity ∧ quantity < values.length
            then values.take quantity else values
          some (unit, start_addr, values)

/-- Classification projection of `udp_web_server.py::decode_modbus_payload`:
the `frame_type` it assigns and, for exceptions, the value of the
`Exception Code` field (`payload[0]` when the payload is non-empty).  The
textual fields, notes and summaries built alongside are not modelled.  The
exception test `function_code & 0x80 == 0x80` is checked *before* the
function-code dispatch, unlike `_candidate_frame_lengths` in `parser.py`. -/
def decode_modbus_payload_class (function_code : Option Nat) (payload : List Nat) :
    String × Option Nat :=
  match function_code with
  | none => ("unknown", none)
  | some f =>
    let fc := f &&& 0x7F
    let is_exception := f &&& 0x80 = 0x80
    let length := payload.length
    if is_exception then ("exception", payload.head?)
    else if fc = 1 ∨ fc = 2 ∨ fc = 3 ∨ fc = 4 then
      if length ≠ 4 ∧ 1 ≤ length then ("response", none)
      else if 4 ≤ length then ("request", none)
      else ("unknown", none)
    else if fc = 5 ∨ fc = 6 then
      if 4 ≤ length then ("request/response", none) else ("unknown", none)
    else if fc = 15 then
      if length = 4 then ("response", none)
      else if 5 ≤ length then ("request", none)
      else ("unknown", none)
    else if fc = 16 then
      if length = 4 then ("response", none)
      else if 5 ≤ length then ("request", none)
      else ("unknown", none)
    else ("unknown", none)

/-! ### Capture hub (`hub.py::ModbusSnifferHub`)

State modelled: the leftover byte buffer, the per-unit FIFO of pending FC03
requests (`_pending_reads`, a `defaultdict(deque)` of
`(start_addr, quantity, monotonic_time)`), and the last-value register map
(`_values`).  Network transports, logging and the asyncio machinery are not
modelled; monotonic clock readings (integer milliseconds) are passed in as
explicit `Int` arguments.
A `RegisterUpdateEvent` is the argument triple of
`async_dispatcher_send(..., SIGNAL_REGISTER_UPDATE, unit_id, register, value)`;
each transition returns the list of events it dispatches, in order. -/

/-- `hub.py::RegisterValue`: the last value seen for a holding register. -/
structure RegisterValue where
  unit_id : Nat
  register : Nat
  value : Nat
  updated_at : Int
deriving DecidableEq

/-- The mutable state of `ModbusSnifferHub` relevant to frame decoding. -/
structure HubState where
  buffer : List Nat
  pending_reads : Nat → List (Nat × Nat × Int)
  values : Nat × Nat → Option RegisterValue

/-- Hub state right after `__init__`: empty buffer, no pending reads,
no stored register values. -/
def initState : HubState :=
  { buffer := [], pending_reads := fun _ => [], values := fun _ => none }

/-- `hub.py::ModbusSnifferHub._purge_old_requests`: pop stale entries
(`now - t > 5.0` seconds, i.e. `5000` ms) from the head of a unit's FIFO
until the head is fresh. -/
def purge_old_requests (queue : List (Nat × Nat × Int)) (now : Int) :
    List (Nat × Nat × Int) :=
  match queue with
  | [] => []
  | e :: rest => if now - e.2.2 > 5000 then purge_old_requests rest now else e :: rest

/-- `hub.py::ModbusSnifferHub._pop_matching_request`: purge, then pop and
return the head's start address (the `quantity` comparison in the source
returns `start_addr` on both branches); also returns the remaining FIFO. -/
def pop_matching_request (queue : List (Nat × Nat × Int)) (values_len : Nat)
    (now : Int) : Option Nat × List (Nat × Nat × Int) :=
  let q := purge_old_requests queue now
  match q with
  | [] => (none, [])
  | (start_addr, quantity, _) :: rest =>
      if quantity ≠ 0 ∧ quantity < values_len then (some start_addr, rest)
      else (some start_addr, rest)

/-- `hub.py::ModbusSnifferHub._store_register`: overwrite the last-value map
at `(unit_id, register)` and dispatch one `(unit_id, register, value)` update
event.  `now` is the monotonic clock reading the source takes inside the
method. -/
def store_register (store : Nat × Nat → Option RegisterValue)
    (unit_id register value : Nat) (now : Int) :
    (Nat × Nat → Option RegisterValue) × (Nat × Nat × Nat) :=
  (fun key => if key = (unit_id, register) then
      some ⟨unit_id, register, value, now⟩ else store key,
   (unit_id, register, value))

/-- The `for offset, value in enumerate(values)` store loops of
`_handle_frame` (FC03-response and FC16 branches): one `_store_register` per
value at consecutive registers from `start_addr`. -/
def store_values (store : Nat × Nat → Option RegisterValue)
    (unit start_addr : Nat) (values : List Nat) (now : Int) :
    (Nat × Nat → Option RegisterValue) × List (Nat × Nat × Nat) :=
  match values with
  | [] => (store, [])
  | v :: rest =>
      let s1 := store_register store unit start_addr v now
      let r := store_values s1.1 unit (start_addr + 1) rest now
      (r.1, s1.2 :: r.2)

/-- `hub.py::ModbusSnifferHub._handle_frame`.  Returns the updated state and
the dispatched update events in order. -/
def handle_frame (st : HubState) (frame : List Nat) (now : Int) :
    HubState × List (Nat × Nat × Nat) :=
  let unit := frame.getD 0 0
  let func := frame.getD 1 0
  let fc := func &&& 0x7F
  if fc = 3 then
    match parse_fc03_request frame with
    | some (_, start_addr, quantity) =>
        let q := st.pending_reads unit ++ [(start_addr, quantity, now)]
        let q := purge_old_requests q now
        ({ st with pending_reads := fun u => if u = unit then q else st.pending_reads u },
         [])
    | none =>
      match parse_fc03_response frame with
      | some (_, values) =>
          let pr := pop_matching_request (st.pending_reads unit) values.length now
          let start_addr := pr.1.getD 0
          let sv := store_values st.values unit start_addr values now
          ({ st with
              pending_reads := fun u => if u = unit then pr.2 else st.pending_reads u,
              values := sv.1 },
           sv.2)
      | none => (st, [])
  else if fc = 6 then
    match parse_fc06 frame with
    | some (_, register, value) =>
        let s := store_register st.values unit register value now
        ({ st with values := s.1 }, [s.2])
    | none => (st, [])
  else if fc = 16 then
    match parse_fc16_request frame with
    | some (_, start_addr, values) =>
        let sv := store_values st.values unit start_addr values now
        ({ st with values := sv.1 }, sv.2)
    | none => (st, [])
  else (st, [])

/-- `hub.py::ModbusSnifferHub._process_bytes`: prepend the retained buffer,
split into frames, keep the leftover, then handle each frame in order.
This single path serves both the UDP and the TCP transport. -/
def process_bytes (st : HubState) (data : List Nat) (now : Int) :
    HubState × List (Nat × Nat × Nat) :=
  if data = [] then (st, [])
  else
    let payload := st.buffer ++ data
    let fr := split_modbus_frames payload
    let st1 : HubState := { st with buffer := fr.2 }
    fr.1.foldl
      (fun acc frame =>
        let r := handle_frame acc.1 frame now
        (r.1, acc.2 ++ r.2))
      (st1, [])

/-- `hub.py::ModbusSnifferHub.handle_datagram`: a received UDP datagram is
processed through the shared `_process_bytes` path. -/
def handle_datagram (st : HubState) (data : List Nat) (now : Int) :
    HubState × List (Nat × Nat × Nat) :=
  process_bytes st data now

/-- `B` contains no CRC-valid frame: no contiguous slice of length at least 4
passes the `split_modbus_frames` CRC test.  (Stated over slice indices so the
predicate is decidable on concrete buffers.) -/
def NoValidSlice (B : List Nat) : Prop :=
  ∀ i < B.length, ∀ L < B.length + 1,
    4 ≤ L → i + L ≤ B.length → crc_matches ((B.drop i).take L) = false

instance (B : List Nat) : Decidable (NoValidSlice B) := by
  unfold NoValidSlice
  infer_instance

/-! ### Lemmas about the frame reconstructor -/

theorem find_frame_length_bounds {rest : List Nat} {cands : List Nat} {L : Nat}
    (h : find_frame_length rest cands = some L) :
    L ≤ rest.length ∧ 4 ≤ L ∧ crc_matches (rest.take L) = true := by
  induction cands with
  | nil => simp [find_frame_length] at h
  | cons c more ih =>
      by_cases hc : c ≤ rest.length ∧ 4 ≤ c ∧ crc_matches (rest.take c) = true
      · simp only [find_frame_length, if_pos hc, Option.some.injEq] at h
        exact h ▸ hc
      · simp only [find_frame_length, if_neg hc] at h
        exact ih h

theorem split_go_leftover_length (cand : Option Nat → Nat → List Nat) :
    ∀ (fuel : Nat) (rest : List Nat), rest.length ≤ fuel →
      (split_go cand fuel rest).2.length ≤ 3 := by
  intro fuel
  induction fuel with
  | zero =>
      intro rest h
      have : rest = [] := List.eq_nil_of_length_eq_zero (Nat.le_zero.mp h)
      subst this
      simp [split_go]
  | succ fuel ih =>
      intro rest h
      rw [split_go]
      by_cases h4 : rest.length < 4
      · simp only [if_pos h4]
        omega
      · simp only [if_neg h4]
        cases hf : find_frame_length rest
            (cand (some (rest.getD 1 0)) (min 256 rest.length)) with
        | some L =>
            have hb := find_frame_length_bounds hf
            simpa using ih (rest.drop L) (by simp [List.length_drop]; omega)
        | none =>
            exact ih (rest.drop 1) (by simp [List.length_drop]; omega)

theorem split_go_leftover_suffix (cand : Option Nat → Nat → List Nat) :
    ∀ (fuel : Nat) (rest : List Nat), (split_go cand fuel rest).2 <:+ rest := by
  intro fuel
  induction fuel with
  | zero => intro rest; simp [split_go]
  | succ fuel ih =>
      intro rest
      rw [split_go]
      by_cases h4 : rest.length < 4
      · simp [if_pos h4]
      · simp only [if_neg h4]
        cases hf : find_frame_length rest
            (cand (some (rest.getD 1 0)) (min 256 rest.length)) with
        | some L => exact (ih (rest.drop L)).trans (List.drop_suffix L rest)
        | none => exact (ih (rest.drop 1)).trans (List.drop_suffix 1 rest)

theorem split_go_join_sublist (cand : Option Nat → Nat → List Nat) :
    ∀ (fuel : Nat) (rest : List Nat),
      List.Sublist ((split_go cand fuel rest).1.flatten ++ (split_go cand fuel rest).2)
        rest := by
  intro fuel
  induction fuel with
  | zero => intro rest; simp [split_go]
  | succ fuel ih =>
      intro rest
      rw [split_go]
      by_cases h4 : rest.length < 4
      · simp [if_pos h4]
      · simp only [if_neg h4]
        cases hf : find_frame_length rest
            (cand (some (rest.getD 1 0)) (min 256 rest.length)) with
        | some L =>
            have step := List.Sublist.append (List.Sublist.refl (rest.take L))
              (ih (rest.drop L))
            simpa [List.append_assoc, List.take_append_drop] using step
        | none =>
            exact (ih (rest.drop 1)).trans (List.drop_sublist 1 rest)

theorem noValidSlice_drop_one {B : List Nat} (h : NoValidSlice B) :
    NoValidSlice (B.drop 1) := by
  intro i hi L hL h4 hiL
  rw [List.drop_drop]
  simp only [List.length_drop] at hi hL hiL
  exact h (1 + i) (by omega) L (by omega) h4 (by omega)

theorem find_frame_length_none_of_noValid {rest : List Nat}
    (h : NoValidSlice rest) (cands : List Nat) :
    find_frame_length rest cands = none := by
  induction cands with
  | nil => rfl
  | cons c more ih =>
      have hguard : ¬ (c ≤ rest.length ∧ 4 ≤ c ∧ crc_matches (rest.take c) = true) := by
        rintro ⟨h1, h2, h3⟩
        have := h 0 (by omega) c (by omega) h2 (by omega)
        simp only [List.drop_zero] at this
        rw [this] at h3
        cases h3
      simp only [find_frame_length, if_neg hguard]
      exact ih

theorem split_go_of_noValidSlice (cand : Option Nat → Nat → List Nat) :
    ∀ (fuel : Nat) (rest : List Nat), rest.length ≤ fuel → NoValidSlice rest →
      split_go cand fuel rest = ([], rest.drop (rest.length - 3)) := by
  intro fuel
  induction fuel with
  | zero =>
      intro rest h hnv
      have : rest = [] := List.eq_nil_of_length_eq_zero (Nat.le_zero.mp h)
      subst this
      simp [split_go]
  | succ fuel ih =>
      intro rest h hnv
      rw [split_go]
      by_cases h4 : rest.length < 4
      · simp only [if_pos h4]
        have : rest.length - 3 = 0 := by omega
        rw [this, List.drop_zero]
      · simp only [if_neg h4]
        rw [find_frame_length_none_of_noValid hnv]
        rw [ih (rest.drop 1) (by simp [List.length_drop]; omega)
          (noValidSlice_drop_one hnv)]
        rw [List.length_drop, List.drop_drop]
        have harith : 1 + (rest.length - 1 - 3) = rest.length - 3 := by omega
        rw [harith]

/-! ### Lemmas about the CRC engine -/

theorem crc_round_lt {x : Nat} (h : x < 2 ^ 16) : crc_round x < 2 ^ 16 := by
  unfold crc_round
  have hdiv : x >>> 1 < 2 ^ 16 := by
    rw [Nat.shiftRight_one]
    exact Nat.lt_of_le_of_lt (Nat.div_le_self x 2) h
  by_cases hb : x &&& 1 = 1
  · rw [if_pos hb]
    exact Nat.xor_lt_two_pow hdiv (by norm_num)
  · rw [if_neg hb]
    exact hdiv

theorem crc_round_iterate_lt {x : Nat} (n : Nat) (h : x < 2 ^ 16) :
    crc_round^[n] x < 2 ^ 16 := by
  induction n with
  | zero => exact h
  | succ n ih =>
      rw [Function.iterate_succ_apply']
      exact crc_round_lt ih

theorem crc_update_lt {c b : Nat} (hc : c < 2 ^ 16) (hb : b < 2 ^ 16) :
    crc_update c b < 2 ^ 16 :=
  crc_round_iterate_lt 8 (Nat.xor_lt_two_pow hc hb)

theorem crc_foldl_lt :
    ∀ (p : List Nat) (c : Nat), (∀ b ∈ p, b < 256) → c < 2 ^ 16 →
      p.foldl crc_update c < 2 ^ 16 := by
  intro p
  induction p with
  | nil => intro c _ hc; exact hc
  | cons b rest ih =>
      intro c h hc
      have hb : b < 256 := h b (List.mem_cons_self b rest)
      refine ih (crc_update c b) (fun x hx => h x (List.mem_cons_of_mem b hx)) ?_
      exact crc_update_lt hc (by omega)

/-- Eight `crc_round`s on a value whose low `k` bits are zero just shift it
right: the XOR with the polynomial never fires while the outgoing bit is 0. -/
theorem crc_round_iterate_of_mod_eq_zero :
    ∀ (k x : Nat), x % 2 ^ k = 0 → crc_round^[k] x = x / 2 ^ k := by
  intro k
  induction k with
  | zero => intro x _; simp
  | succ k ih =>
      intro x h
      obtain ⟨m, hm⟩ := Nat.dvd_of_mod_eq_zero h
      have hx2 : x % 2 = 0 := by
        subst hm
        rw [pow_succ, Nat.mul_comm (2 ^ k) 2, Nat.mul_assoc]
        exact Nat.mul_mod_right 2 (2 ^ k * m)
      have hand : ¬ (x &&& 1 = 1) := by
        rw [Nat.and_one_is_mod, hx2]
        omega
      rw [Function.iterate_succ_apply, crc_round, if_neg hand, Nat.shiftRight_one]
      have hhalf : x / 2 = 2 ^ k * m := by
        subst hm
        rw [pow_succ, Nat.mul_comm (2 ^ k) 2, Nat.mul_assoc]
        exact Nat.mul_div_cancel_left (2 ^ k * m) (by norm_num)
      have hmod : (x / 2) % 2 ^ k = 0 := by
        rw [hhalf]
        exact Nat.mul_mod_right (2 ^ k) m
      rw [ih (x / 2) hmod, Nat.div_div_eq_div_mul, ← pow_succ']

/-- XORing a value with its own low byte clears the low byte. -/
theorem xor_low_byte (c : Nat) : c ^^^ c % 256 = (c >>> 8) <<< 8 := by
  have h256 : (256 : Nat) = 2 ^ 8 := by norm_num
  rw [h256]
  refine Nat.eq_of_testBit_eq fun i => ?_
  rw [Nat.testBit_xor, Nat.testBit_mod_two_pow, Nat.testBit_shiftLeft,
    Nat.testBit_shiftRight]
  by_cases h : i < 8
  · have h8 : ¬ (i ≥ 8) := by omega
    simp [h, h8]
  · have h8 : i ≥ 8 := by omega
    have : 8 + (i - 8) = i := by omega
    simp [h, h8, this]

/-- Feeding the low byte of the running CRC into the CRC engine turns the
running value into its own high byte. -/
theorem crc_update_low_byte (c : Nat) : crc_update c (c % 256) = c / 256 := by
  unfold crc_update
  rw [xor_low_byte, Nat.shiftLeft_eq]
  have hmod : (c >>> 8) * 2 ^ 8 % 2 ^ 8 = 0 := Nat.mul_mod_left (c >>> 8) (2 ^ 8)
  rw [crc_round_iterate_of_mod_eq_zero 8 _ hmod,
    Nat.mul_div_cancel _ (by norm_num : 0 < 2 ^ 8), Nat.shiftRight_eq_div_pow]

/-- Feeding a value equal to the running CRC zeroes the register. -/
theorem crc_update_self (x : Nat) : crc_update x x = 0 := by
  unfold crc_update
  rw [Nat.xor_self]
  have h := crc_round_iterate_of_mod_eq_zero 8 0 (by simp)
  simpa using h

/-! ### Claim theorems: frame reconstructor -/

/-- C2 (code_bug evidence).  `parser.py` masks the function byte with `0x7F`
before dispatching, so for the exception function byte `0x83` the candidate
length set is the (empty after filtering) FC03 set, **not** `{5}`; the
CRC-valid exception frame `01 83 02 C0 F1` is therefore never emitted by the
hub's reconstructor and the hub dispatches no event for it.  The sibling
copy in `udp_web_server.py` dispatches on the unmasked byte and does return
`[5]` and emit the frame, whose payload the web decoder then classifies as
an exception with code 2, matching the specified behaviour. -/
theorem exception_candidates_shadowed :
    candidate_frame_lengths (some 0x83) 5 = [] ∧
    candidate_frame_lengths_web (some 0x83) 5 = [5] ∧
    split_modbus_frames [0x01, 0x83, 0x02, 0xC0, 0xF1] = ([], [0x02, 0xC0, 0xF1]) ∧
    split_modbus_frames_web [0x01, 0x83, 0x02, 0xC0, 0xF1]
      = ([[0x01, 0x83, 0x02, 0xC0, 0xF1]], []) ∧
    decode_modbus_payload_class (some 0x83) [0x02] = ("exception", some 2) ∧
    (handle_datagram initState [0x01, 0x83, 0x02, 0xC0, 0xF1] 0).2 = [] := by
  decide

/-- C3 (counterexample).  `B = 01 03 04 00 0A 00 14` is a proper prefix
(length 7 ≥ 4) of the CRC-valid frame `01 03 04 00 0A 00 14 DA 3E` and
contains no CRC-valid slice, yet `split_modbus_frames B` does **not** return
`B` whole as leftover: the resynchronisation loop erodes it to its last three
bytes.  Consequently feeding the chunk and then `5A 3D` through the hub's
stream path yields no register-update events at all (note also that the CRC
`5A 3D` the spec attaches to this frame is not the frame's actual CRC). -/
theorem partial_frame_not_preserved_cex :
    NoValidSlice [0x01, 0x03, 0x04, 0x00, 0x0A, 0x00, 0x14] ∧
    [0x01, 0x03, 0x04, 0x00, 0x0A, 0x00, 0x14] ++ [0xDA, 0x3E]
      = [0x01, 0x03, 0x04, 0x00, 0x0A, 0x00, 0x14, 0xDA, 0x3E] ∧
    crc_matches [0x01, 0x03, 0x04, 0x00, 0x0A, 0x00, 0x14, 0xDA, 0x3E] = true ∧
    split_modbus_frames [0x01, 0x03, 0x04, 0x00, 0x0A, 0x00, 0x14]
      ≠ ([], [0x01, 0x03, 0x04, 0x00, 0x0A, 0x00, 0x14]) ∧
    (process_bytes initState [0x01, 0x03, 0x04, 0x00, 0x0A, 0x00, 0x14] 0).2 = [] ∧
    (process_bytes (process_bytes initState
        [0x01, 0x03, 0x04, 0x00, 0x0A, 0x00, 0x14] 0).1 [0x5A, 0x3D] 0).2 = [] := by
  decide

/-- C3 (amended).  What the reconstructor actually guarantees for a buffer
with no CRC-valid slice (in particular for any prefix of a longer frame with
no spurious CRC hit): no frames are emitted and the leftover is the last
`min (length, 3)` bytes — a trailing partial frame is preserved whole only
when it is shorter than 4 bytes; longer partial frames are eroded byte by
byte by the resynchronisation step. -/
theorem split_of_no_valid_slice (data : List Nat) (h : NoValidSlice data) :
    split_modbus_frames data = ([], data.drop (data.length - 3)) :=
  split_go_of_noValidSlice candidate_frame_lengths data.length data le_rfl h

theorem split_of_no_valid_slice_witness :
    NoValidSlice [0x01, 0x03, 0x04, 0x00, 0x0A, 0x00, 0x14] ∧
    split_modbus_frames [0x01, 0x03, 0x04, 0x00, 0x0A, 0x00, 0x14]
      = ([], List.drop ([0x01, 0x03, 0x04, 0x00, 0x0A, 0x00, 0x14].length - 3)
          [0x01, 0x03, 0x04, 0x00, 0x0A, 0x00, 0x14]) :=
  ⟨by decide, split_of_no_valid_slice _ (by decide)⟩

/-- C4 (counterexample).  After a valid frame, trailing noise bytes are also
eroded by resynchronisation, so the concatenation of the emitted frames and
the leftover is **not** a suffix of the input: for
`B = 01 06 00 05 00 64 98 20 00 00 00 00 00` the splitter emits the 8-byte
FC06 frame and leftover `00 00 00`, and frame bytes ++ leftover (11 bytes) is
not a suffix of `B`. -/
theorem frames_leftover_not_suffix_cex :
    split_modbus_frames [0x01, 0x06, 0x00, 0x05, 0x00, 0x64, 0x98, 0x20, 0, 0, 0, 0, 0]
      = ([[0x01, 0x06, 0x00, 0x05, 0x00, 0x64, 0x98, 0x20]], [0, 0, 0]) ∧
    ¬ (([[0x01, 0x06, 0x00, 0x05, 0x00, 0x64, 0x98, 0x20]] : List (List Nat)).flatten
        ++ [0, 0, 0]
      <:+ [0x01, 0x06, 0x00, 0x05, 0x00, 0x64, 0x98, 0x20, 0, 0, 0, 0, 0]) := by
  decide

/-- C4 (amended).  `split_modbus_frames` is a total function (the cursor
strictly advances, which the fuel argument of `split_go` makes structural),
its leftover is a suffix of the input, and the emitted frame bytes followed
by the leftover form a *sublist* (order-preserving, possibly non-contiguous)
of the input: bytes may be discarded before, between and after emitted
frames by resynchronisation, not only before the earliest frame. -/
theorem split_suffix_and_sublist (data : List Nat) :
    (split_modbus_frames data).2 <:+ data ∧
    List.Sublist ((split_modbus_frames data).1.flatten ++ (split_modbus_frames data).2)
      data :=
  ⟨split_go_leftover_suffix candidate_frame_lengths data.length data,
   split_go_join_sublist candidate_frame_lengths data.length data⟩

/-- C10.  The scan loop of `split_modbus_frames` runs while at least 4 bytes
remain and never moves the cursor backwards, so the leftover it returns is
always at most 3 bytes long. -/
theorem split_leftover_at_most_three (data : List Nat) :
    (split_modbus_frames data).2.length ≤ 3 :=
  split_go_leftover_length candidate_frame_lengths data.length data le_rfl

/-- C5.  CRC round-trip: appending the two-byte little-endian encoding of
`compute_crc p` to a byte sequence `p` drives the CRC register to zero. -/
theorem compute_crc_roundtrip (p : List Nat) (h : ∀ b ∈ p, b < 256) :
    compute_crc (p ++ [compute_crc p % 256, compute_crc p / 256]) = 0 := by
  have hc0 : p.foldl crc_update 0xFFFF < 2 ^ 16 :=
    crc_foldl_lt p 0xFFFF h (by norm_num)
  have hmask : compute_crc p = p.foldl crc_update 0xFFFF := by
    unfold compute_crc
    have h16 : (0xFFFF : Nat) = 2 ^ 16 - 1 := by norm_num
    rw [h16]
    exact Nat.and_pow_two_sub_one_of_lt_two_pow hc0
  rw [hmask]
  unfold compute_crc
  rw [List.foldl_append]
  show (crc_update (crc_update (p.foldl crc_update 0xFFFF)
      ((p.foldl crc_update 0xFFFF) % 256))
      ((p.foldl crc_update 0xFFFF) / 256)) &&& 0xFFFF = 0
  rw [crc_update_low_byte, crc_update_self]
  exact Nat.zero_and 0xFFFF

theorem compute_crc_roundtrip_witness :
    (∀ b ∈ [0x01, 0x83, 0x02], b < 256) ∧
    compute_crc ([0x01, 0x83, 0x02] ++
      [compute_crc [0x01, 0x83, 0x02] % 256, compute_crc [0x01, 0x83, 0x02] / 256]) = 0 :=
  ⟨by decide, compute_crc_roundtrip [0x01, 0x83, 0x02] (by decide)⟩

/-! ### Lemmas about the hub -/

theorem parse_fc03_response_eq {frame : List Nat} {u : Nat} {vs : List Nat}
    (h : parse_fc03_response frame = some (u, vs)) :
    frame.getD 1 0 &&& 0x7F = 3 ∧ frame.getD 1 0 &&& 0x80 = 0 ∧ u = frame.getD 0 0 := by
  simp only [parse_fc03_response] at h
  split_ifs at h with h1 h2 h3 h4
  push_neg at h2
  obtain ⟨hfc, hex⟩ := h2
  rw [Option.some_inj] at h
  exact ⟨hfc, hex, ((congrArg Prod.fst h).symm : u = _)⟩

theorem store_values_events :
    ∀ (values : List Nat) (store : Nat × Nat → Option RegisterValue)
      (unit a : Nat) (now : Int),
      (store_values store unit a values now).2 =
        (List.range values.length).map (fun i => (unit, a + i, values.getD i 0)) := by
  intro values
  induction values with
  | nil => intro store unit a now; simp [store_values]
  | cons v rest ih =>
      intro store unit a now
      simp only [store_values, store_register]
      rw [ih, List.length_cons, List.range_succ_eq_map, List.map_cons, List.map_map]
      refine congrArg₂ List.cons ?_ ?_
      · simp
      · refine List.map_congr_left fun i hi => ?_
        simp only [Function.comp_apply, List.getD_cons_succ, Prod.mk.injEq,
          Nat.succ_eq_add_one]
        exact ⟨trivial, by omega, trivial⟩

theorem store_values_length (store : Nat × Nat → Option RegisterValue)
    (unit a : Nat) (values : List Nat) (now : Int) :
    (store_values store unit a values now).2.length = values.length := by
  rw [store_values_events]
  simp

/-- In `_handle_frame`, a frame that fails to parse as an FC03 request but
parses as an FC03 response is processed by the response branch: its events
are exactly those of the store loop started at the popped (or defaulted)
base address. -/
theorem handle_frame_response_events {st : HubState} {frame : List Nat} {now : Int}
    {u : Nat} {values : List Nat}
    (hreq : parse_fc03_request frame = none)
    (hresp : parse_fc03_response frame = some (u, values)) :
    (handle_frame st frame now).2 =
      (store_values st.values (frame.getD 0 0)
        ((pop_matching_request (st.pending_reads (frame.getD 0 0)) values.length now).1.getD 0)
        values now).2 := by
  obtain ⟨hfc, hex, hu⟩ := parse_fc03_response_eq hresp
  simp only [handle_frame, hfc, if_pos, hreq, hresp]

/-- After `_purge_old_requests`, the entry at the head of the FIFO (the only
entry `_pop_matching_request` can consume) is fresh: its age is at most the
5-second TTL. -/
theorem purge_head_fresh :
    ∀ (q : List (Nat × Nat × Int)) (now : Int) (e : Nat × Nat × Int)
      (rest : List (Nat × Nat × Int)),
      purge_old_requests q now = e :: rest → ¬ (now - e.2.2 > 5000) := by
  intro q
  induction q with
  | nil => intro now e rest h; simp [purge_old_requests] at h
  | cons x xs ih =>
      intro now e rest h
      rw [purge_old_requests] at h
      by_cases hc : now - x.2.2 > 5000
      · rw [if_pos hc] at h
        exact ih now e rest h
      · rw [if_neg hc] at h
        injection h with h1 h2
        rw [← h1]
        exact hc

/-- When `_pop_matching_request` returns a start address, that address comes
from the head of the purged FIFO, and that head entry is fresh. -/
theorem pop_matching_request_spec {q : List (Nat × Nat × Int)} {vlen : Nat} {now : Int}
    {s : Nat} {q' : List (Nat × Nat × Int)}
    (h : pop_matching_request q vlen now = (some s, q')) :
    ∃ qty t, purge_old_requests q now = (s, qty, t) :: q' ∧ ¬ (now - t > 5000) := by
  simp only [pop_matching_request] at h
  cases hp : purge_old_requests q now with
  | nil => rw [hp] at h; simp at h
  | cons e rest =>
      rw [hp] at h
      obtain ⟨s0, qty0, t0⟩ := e
      dsimp only at h
      rw [ite_self] at h
      injection h with h1 h2
      injection h1 with h1
      subst h1
      subst h2
      exact ⟨qty0, t0, rfl, purge_head_fresh q now _ _ hp⟩

/-! ### Claim theorems: hub -/

/-- C1 (counterexample).  The hub's UDP path does *not* treat each datagram
as standing alone: the leftover of a previous datagram **is** prepended.
Datagram `01 06 00` alone produces no frame and is retained as leftover;
the following datagram `05 00 64 98 20` then completes the FC06 frame
`01 06 00 05 00 64 98 20` and produces the event `(1, 5, 100)` even though
the same datagram handed to a fresh hub produces no event at all — the
frames emitted for a datagram do not depend only on that datagram's bytes. -/
theorem udp_datagram_not_standalone_cex :
    (handle_datagram initState [0x01, 0x06, 0x00] 0).2 = [] ∧
    (handle_datagram initState [0x01, 0x06, 0x00] 0).1.buffer = [0x01, 0x06, 0x00] ∧
    (handle_datagram (handle_datagram initState [0x01, 0x06, 0x00] 0).1
        [0x05, 0x00, 0x64, 0x98, 0x20] 0).2 = [(1, 5, 100)] ∧
    (handle_datagram initState [0x05, 0x00, 0x64, 0x98, 0x20] 0).2 = [] := by
  decide

/-- C1 (amended).  `handle_datagram` routes every UDP datagram through the
shared `_process_bytes` path, which prepends the retained leftover buffer:
processing datagram `data` in state `st` is exactly processing
`st.buffer ++ data` with an empty buffer, for both transports alike. -/
theorem process_bytes_prepends_buffer (st : HubState) (data : List Nat) (now : Int)
    (h : data ≠ []) :
    handle_datagram st data now
      = handle_datagram { st with buffer := [] } (st.buffer ++ data) now := by
  have h2 : st.buffer ++ data ≠ [] := by
    intro hc
    exact h (List.append_eq_nil.mp hc).2
  simp only [handle_datagram, process_bytes, if_neg h, if_neg h2, List.nil_append]

theorem process_bytes_prepends_buffer_witness :
    ([0x05, 0x00, 0x64, 0x98, 0x20] : List Nat) ≠ [] ∧
    handle_datagram ⟨[0x01, 0x06, 0x00], fun _ => [], fun _ => none⟩
        [0x05, 0x00, 0x64, 0x98, 0x20] 0
      = handle_datagram
          { (⟨[0x01, 0x06, 0x00], fun _ => [], fun _ => none⟩ : HubState) with buffer := [] }
          (HubState.buffer ⟨[0x01, 0x06, 0x00], fun _ => [], fun _ => none⟩
            ++ [0x05, 0x00, 0x64, 0x98, 0x20]) 0 :=
  ⟨by decide, process_bytes_prepends_buffer _ _ _ (by decide)⟩

/-- C6.  A frame handled as an FC03 response produces exactly one
`RegisterUpdateEvent` per decoded 16-bit value: the number of dispatched
events equals the length of the value list extracted by
`parse_fc03_response` (the complete big-endian byte pairs within the
payload's byte count). -/
theorem fc03_response_event_count (st : HubState) (frame : List Nat) (now : Int)
    (u : Nat) (values : List Nat)
    (hreq : parse_fc03_request frame = none)
    (hresp : parse_fc03_response frame = some (u, values)) :
    (handle_frame st frame now).2.length = values.length := by
  rw [handle_frame_response_events hreq hresp, store_values_length]

theorem fc03_response_event_count_witness :
    parse_fc03_request [0x02, 0x03, 0x02, 0x00, 0xFF, 0xF8, 0x45] = none ∧
    parse_fc03_response [0x02, 0x03, 0x02, 0x00, 0xFF, 0xF8, 0x45] = some (2, [255]) ∧
    (handle_frame initState [0x02, 0x03, 0x02, 0x00, 0xFF, 0xF8, 0x45] 0).2.length = 1 :=
  ⟨by decide, by decide,
   fc03_response_event_count initState _ 0 2 [255] (by decide) (by decide)⟩

/-- C7 (counterexample).  No `CorrelationMissed` flag exists anywhere in the
hub: a dispatched event is the bare triple `(unit, register, value)`.  For
the spec's example bytes `02 03 02 00 FF F8 45`: (a) fed to the hub as a
datagram they produce *no* event at all, because `F8 45` is not the frame's
actual CRC, so the reconstructor never emits it; (b) handed directly to the
frame handler, the empty-FIFO (uncorrelated) run and a run with a matching
pending request produce *identical* event lists `[(2, 0, 255)]` — nothing on
the emitted events records that correlation was lost. -/
theorem correlation_loss_not_recorded_cex :
    (handle_datagram initState [0x02, 0x03, 0x02, 0x00, 0xFF, 0xF8, 0x45] 0).2 = [] ∧
    (handle_frame initState [0x02, 0x03, 0x02, 0x00, 0xFF, 0xF8, 0x45] 0).2
      = [(2, 0, 255)] ∧
    (handle_frame
        { initState with pending_reads := fun u => if u = 2 then [(0, 1, 0)] else [] }
        [0x02, 0x03, 0x02, 0x00, 0xFF, 0xF8, 0x45] 0).2
      = [(2, 0, 255)] := by
  decide

/-- C7 (amended).  When a frame handled as an FC03 response finds the unit's
pending-request FIFO empty *after purging stale entries* (so in particular
when the FIFO held only entries older than the 5-second TTL), the values are
assigned to consecutive registers from base address 0 — and that is all: the
dispatched events are the plain triples `(unit, i, values[i])`, carrying no
correlation-missed marker. -/
theorem fc03_response_empty_fifo_base_zero (st : HubState) (frame : List Nat)
    (now : Int) (u : Nat) (values : List Nat)
    (hreq : parse_fc03_request frame = none)
    (hresp : parse_fc03_response frame = some (u, values))
    (hpend : purge_old_requests (st.pending_reads (frame.getD 0 0)) now = []) :
    (handle_frame st frame now).2 =
      (List.range values.length).map (fun i => (u, i, values.getD i 0)) := by
  rw [handle_frame_response_events hreq hresp]
  have hpop : pop_matching_request (st.pending_reads (frame.getD 0 0))
      values.length now = (none, []) := by
    simp only [pop_matching_request, hpend]
  rw [hpop, store_values_events]
  have hu : u = frame.getD 0 0 := (parse_fc03_response_eq hresp).2.2
  subst hu
  simp

theorem fc03_response_empty_fifo_base_zero_witness :
    parse_fc03_request [0x02, 0x03, 0x02, 0x00, 0xFF, 0xF8, 0x45] = none ∧
    parse_fc03_response [0x02, 0x03, 0x02, 0x00, 0xFF, 0xF8, 0x45] = some (2, [255]) ∧
    purge_old_requests
      (HubState.pending_reads
        ⟨[], fun un => if un = 2 then [(7, 1, 0)] else [], fun _ => none⟩
        ([0x02, 0x03, 0x02, 0x00, 0xFF, 0xF8, 0x45].getD 0 0)) 5001 = [] ∧
    (handle_frame ⟨[], fun un => if un = 2 then [(7, 1, 0)] else [], fun _ => none⟩
        [0x02, 0x03, 0x02, 0x00, 0xFF, 0xF8, 0x45] 5001).2
      = (List.range ([255] : List Nat).length).map
          (fun i => (2, i, ([255] : List Nat).getD i 0)) :=
  ⟨by decide, by decide, by decide,
   fc03_response_empty_fifo_base_zero
     ⟨[], fun un => if un = 2 then [(7, 1, 0)] else [], fun _ => none⟩
     _ 5001 2 [255] (by decide) (by decide) (by decide)⟩

/-- C8.  Pending-request TTL: an entry inserted at monotonic time `t` can
never be consumed by a response processed at `now ≥ t + 5001` ms
(`t + 5.001` s): after purging, no such entry remains at the head of the
FIFO, and any start address `_pop_matching_request` does return comes from a
head entry whose age is within the 5000 ms TTL. -/
theorem pending_request_ttl (queue : List (Nat × Nat × Int)) (now t : Int)
    (h : now ≥ t + 5001) :
    (∀ s qty rest, purge_old_requests queue now ≠ (s, qty, t) :: rest) ∧
    (∀ vlen s q', pop_matching_request queue vlen now = (some s, q') →
      ∃ qty tp, purge_old_requests queue now = (s, qty, tp) :: q' ∧ now - tp ≤ 5000) := by
  constructor
  · intro s qty rest hEq
    have hfresh := purge_head_fresh queue now (s, qty, t) rest hEq
    simp only [gt_iff_lt, not_lt] at hfresh
    omega
  · intro vlen s q' hpop
    obtain ⟨qty, tp, hq, hfresh⟩ := pop_matching_request_spec hpop
    exact ⟨qty, tp, hq, by omega⟩

theorem pending_request_ttl_witness :
    ((5001 : Int) ≥ 0 + 5001) ∧
    purge_old_requests [(7, 2, 0)] 5001 ≠ (5, 9, (0 : Int)) :: [] :=
  ⟨by decide, (pending_request_ttl [(7, 2, 0)] 5001 0 (by decide)).1 5 9 []⟩

/-- C9.  `_store_register` is idempotent on the store: writing `(u, r, v)`
twice (at clock readings `t1` then `t2`) leaves the last-value map in
exactly the state of the single final write, and each of the two calls
dispatches exactly one `(u, r, v)` event, so two events are emitted. -/
theorem store_register_idempotent (store : Nat × Nat → Option RegisterValue)
    (u r v : Nat) (t1 t2 : Int) :
    (store_register (store_register store u r v t1).1 u r v t2).1
      = (store_register store u r v t2).1 ∧
    [(store_register store u r v t1).2,
     (store_register (store_register store u r v t1).1 u r v t2).2]
      = [(u, r, v), (u, r, v)] := by
  constructor
  · funext key
    by_cases hk : key = (u, r)
    · simp [store_register, hk]
    · simp [store_register, hk]
  · rfl

end ModbusSniffer
